import Mathlib

/-!
The device configuration template `credentials.example.h`.

The repository's only source file is a C header made of comment lines and ten
object-like `#define` directives.  This development embeds

* the text of the header, line by line (`sourceLines`);
* the part of the C preprocessor the header exercises: lexing a line into
  preprocessing tokens (`lexStep`, `lexLine`), recognising `#define`
  directives (`parseLine`, `parseHeader`), and object-like macro expansion
  (`expand`, `valueOf`);
* the Device Configuration Record of the specification and the way it is read
  off the macro table (`DeviceConfigurationRecord`, `build`).

Constructs the header does not use (escape sequences, octal and suffixed
numbers, operators, function-like macros, other directives) make the lexer or
the parser fail with `none` instead of being given a meaning.
-/

set_option autoImplicit false
set_option maxRecDepth 100000

namespace Credentials

/-! ## The source text -/

/-- The lines of `credentials.example.h`, in order. -/
def sourceLines : List String := [
  "// WiFi Connection",
  "//",
  "// Enter the SSID & Password of the network you want to connect to.",
  "// The hostname is what the device shows up as on the network",
  "// e.g. \"ESP8266 Bedroom\".",
  "//",
  "// Be aware that this bakes the password into your mcu, so you'll",
  "// want to flash it with garbage before disposing.",
  "//",
  "#define WIFI_SSID \"MyRouter123\"",
  "#define WIFI_PASS \"Hunter2\"",
  "#define WIFI_HOSTNAME \"Attic Temperature\"",
  "",
  "// MQTT Connection",
  "//",
  "// Recommend just installing the MQTT Add-on into Home Assistant.",
  "// In its configuration, add a user with a password and enter that here.",
  "//",
  "// The client name is what uniquely identifies this board to the MQTT",
  "// server. If you have multiple devices, set each one differently.",
  "#define MQTT_SERVER \"homeassistant.local\"",
  "#define MQTT_PORT 1883",
  "#define MQTT_USER \"username_here\"",
  "#define MQTT_PASS \"password_here\"",
  "#define MQTT_CLIENTNAME \"esp8266-attic\"",
  "",
  "// MQTT Config",
  "//",
  "// These are the channels that readings will be posted to.",
  "// Type what you like - if they don't exist they'll be created on the fly.",
  "//",
  "// You'll need to type the same thing into your homeassistant config yaml",
  "// to tell it what to read from.",
  "#define humidity_topic \"sensor/esp8266-attic/humidity\"",
  "#define temperature_topic \"sensor/esp8266-attic/temperature\""
]

/-! ## Preprocessing tokens and the line lexer -/

/-- Preprocessing tokens that occur in the header. -/
inductive PPToken where
  | hash
  | ident (name : String)
  | number (value : Nat)
  | stringLit (text : String)
  deriving DecidableEq, Repr

/-- State of the line lexer.  Accumulated characters are kept reversed. -/
inductive LexState where
  | idle
  | slash
  | comment
  | inIdent (acc : List Char)
  | inNumber (digits : List Char)
  | inString (acc : List Char)
  | failed
  deriving DecidableEq, Repr

/-- Characters that may start an identifier. -/
def isIdentStart (c : Char) : Bool := c.isAlpha || c == '_'

/-- Characters that may continue an identifier. -/
def isIdentCont (c : Char) : Bool := c.isAlphanum || c == '_'

/-- Value of a decimal digit string given most significant digit first. -/
def decimalValue (ds : List Char) : Nat :=
  ds.foldl (fun n d => 10 * n + (d.toNat - '0'.toNat)) 0

/-- Lexer step taken when no token is in progress. -/
def lexIdle (out : List PPToken) (c : Char) : LexState × List PPToken :=
  if c == ' ' || c == '\t' then (.idle, out)
  else if c == '#' then (.idle, .hash :: out)
  else if c == '"' then (.inString [], out)
  else if c == '/' then (.slash, out)
  else if c.isDigit then (.inNumber [c], out)
  else if isIdentStart c then (.inIdent [c], out)
  else (.failed, out)

/-- One step of the line lexer.  The emitted tokens are kept reversed. -/
def lexStep (st : LexState × List PPToken) (c : Char) : LexState × List PPToken :=
  match st with
  | (.idle, out) => lexIdle out c
  | (.slash, out) => if c == '/' then (.comment, out) else (.failed, out)
  | (.comment, out) => (.comment, out)
  | (.inIdent acc, out) =>
      if isIdentCont c then (.inIdent (c :: acc), out)
      else lexIdle (.ident (String.mk acc.reverse) :: out) c
  | (.inNumber ds, out) =>
      if c.isDigit then
        (if ds == ['0'] then (.failed, out) else (.inNumber (c :: ds), out))
      else if isIdentCont c || c == '.' then (.failed, out)
      else lexIdle (.number (decimalValue ds.reverse) :: out) c
  | (.inString acc, out) =>
      if c == '"' then (.idle, .stringLit (String.mk acc.reverse) :: out)
      else if c == '\\' then (.failed, out)
      else (.inString (c :: acc), out)
  | (.failed, out) => (.failed, out)

/-- Closes the token in progress at the end of a line. -/
def lexFinish : LexState × List PPToken → Option (List PPToken)
  | (.idle, out) => some out.reverse
  | (.comment, out) => some out.reverse
  | (.inIdent acc, out) => some (PPToken.ident (String.mk acc.reverse) :: out).reverse
  | (.inNumber ds, out) => some (PPToken.number (decimalValue ds.reverse) :: out).reverse
  | (.slash, _) => none
  | (.inString _, _) => none
  | (.failed, _) => none

/-- Lexes one source line into preprocessing tokens. -/
def lexLine (line : String) : Option (List PPToken) :=
  lexFinish (line.toList.foldl lexStep (.idle, []))

/-! ## Directives and the macro table -/

/-- An object-like macro definition: `#define name body`. -/
structure Define where
  name : String
  body : List PPToken
  deriving DecidableEq, Repr

/-- Reads a lexed line: `some none` for a line without tokens, `some (some d)`
for a `#define` directive, `none` for anything else. -/
def parseLine : List PPToken → Option (Option Define)
  | [] => some none
  | .hash :: .ident "define" :: .ident name :: body =>
      if body.contains .hash then none else some (some ⟨name, body⟩)
  | _ => none

/-- Lexes and reads every line, collecting the definitions in source order. -/
def parseHeader : List String → Option (List Define)
  | [] => some []
  | line :: rest =>
      match lexLine line with
      | none => none
      | some toks =>
          match parseLine toks, parseHeader rest with
          | some (some d), some ds => some (d :: ds)
          | some none, some ds => some ds
          | _, _ => none

/-- The macro table of `credentials.example.h`, i.e. its ten `#define`s. -/
def credentials : List Define := [
  ⟨"WIFI_SSID", [.stringLit "MyRouter123"]⟩,
  ⟨"WIFI_PASS", [.stringLit "Hunter2"]⟩,
  ⟨"WIFI_HOSTNAME", [.stringLit "Attic Temperature"]⟩,
  ⟨"MQTT_SERVER", [.stringLit "homeassistant.local"]⟩,
  ⟨"MQTT_PORT", [.number 1883]⟩,
  ⟨"MQTT_USER", [.stringLit "username_here"]⟩,
  ⟨"MQTT_PASS", [.stringLit "password_here"]⟩,
  ⟨"MQTT_CLIENTNAME", [.stringLit "esp8266-attic"]⟩,
  ⟨"humidity_topic", [.stringLit "sensor/esp8266-attic/humidity"]⟩,
  ⟨"temperature_topic", [.stringLit "sensor/esp8266-attic/temperature"]⟩
]

/-! ## Macro expansion and constant values -/

/-- Replacement list of the first definition of `name` in a macro table. -/
def lookup (table : List Define) (name : String) : Option (List PPToken) :=
  match table.find? (fun d => d.name == name) with
  | some d => some d.body
  | none => none

/-- Expands the object-like macros of `table` in a token list.  An identifier
naming a macro is replaced by the expansion of its replacement list, during
which that name is no longer expanded (`hidden`).  Returns `none` when the
fuel runs out. -/
def expand (table : List Define) : Nat → List String → List PPToken → Option (List PPToken)
  | 0, _, _ => none
  | fuel + 1, hidden, toks =>
      (toks.mapM (fun (t : PPToken) =>
        match t with
        | PPToken.ident x =>
            if hidden.contains x then some [t]
            else
              match lookup table x with
              | some body => expand table fuel (x :: hidden) body
              | none => some [t]
        | _ => some [t])).map List.flatten

/-- The value a constant has where it is used. -/
inductive Value where
  | text (s : String)
  | int (n : Nat)
  deriving DecidableEq, Repr

/-- Concatenation of adjacent string literals; `none` if another token occurs. -/
def concatStrings : List PPToken → Option String
  | [] => none
  | [.stringLit s] => some s
  | .stringLit s :: rest =>
      match concatStrings rest with
      | some r => some (s ++ r)
      | none => none
  | _ :: _ => none

/-- Value denoted by a fully expanded token list: a single number, or one or
more adjacent string literals. -/
def literalValue : List PPToken → Option Value
  | [.number n] => some (.int n)
  | toks =>
      match concatStrings toks with
      | some s => some (.text s)
      | none => none

/-- Value of the identifier `name` under the macro table `table`. -/
def valueOf (table : List Define) (name : String) : Option Value :=
  match expand table (table.length + 1) [] [.ident name] with
  | some toks => literalValue toks
  | none => none

/-- Text value of a constant, `none` if it is undefined or not text. -/
def textOf (table : List Define) (name : String) : Option String :=
  match valueOf table name with
  | some (.text s) => some s
  | _ => none

/-- Integer value of a constant, `none` if it is undefined or not an integer. -/
def intOf (table : List Define) (name : String) : Option Nat :=
  match valueOf table name with
  | some (.int n) => some n
  | _ => none

/-- Replaces the replacement list of every definition of `name`, which is
what editing that `#define` line of the header does to the macro table. -/
def redefine (table : List Define) (name : String) (body : List PPToken) : List Define :=
  table.map (fun d => if d.name == name then { d with body := body } else d)

/-- Whether a replacement list mentions the identifier `name`. -/
def mentions (body : List PPToken) (name : String) : Bool :=
  body.contains (.ident name)

/-! ## The Device Configuration Record -/

/-- The Device Configuration Record as the specification's data model lists
it: nine text fields and the integer `broker_port`. -/
structure DeviceConfigurationRecord where
  network_ssid : String
  network_password : String
  device_hostname : String
  broker_address : String
  broker_port : Nat
  broker_username : String
  broker_password : String
  client_identifier : String
  humidity_topic : String
  temperature_topic : String
  deriving DecidableEq, Repr

/-- Reads the record off a macro table, each field from the constant the
header names for it, with the type the data model states. -/
def build (table : List Define) : Option DeviceConfigurationRecord :=
  match textOf table "WIFI_SSID", textOf table "WIFI_PASS", textOf table "WIFI_HOSTNAME",
        textOf table "MQTT_SERVER", intOf table "MQTT_PORT", textOf table "MQTT_USER",
        textOf table "MQTT_PASS", textOf table "MQTT_CLIENTNAME",
        textOf table "humidity_topic", textOf table "temperature_topic" with
  | some ssid, some pass, some host, some server, some port, some user, some bpass,
    some client, some hum, some temp =>
      some ⟨ssid, pass, host, server, port, user, bpass, client, hum, temp⟩
  | _, _, _, _, _, _, _, _, _, _ => none

/-- The macro table obtained from the text of the header. -/
def headerTable : Option (List Define) := parseHeader sourceLines

/-- Value of a constant as defined by the text of the header. -/
def headerValue (name : String) : Option Value :=
  match headerTable with
  | some table => valueOf table name
  | none => none

/-- Value of `WIFI_SSID` in the header. -/
def WIFI_SSID : Option Value := headerValue "WIFI_SSID"

/-- Value of `WIFI_PASS` in the header. -/
def WIFI_PASS : Option Value := headerValue "WIFI_PASS"

/-- Value of `WIFI_HOSTNAME` in the header. -/
def WIFI_HOSTNAME : Option Value := headerValue "WIFI_HOSTNAME"

/-- Value of `MQTT_SERVER` in the header. -/
def MQTT_SERVER : Option Value := headerValue "MQTT_SERVER"

/-- Value of `MQTT_PORT` in the header. -/
def MQTT_PORT : Option Value := headerValue "MQTT_PORT"

/-- Value of `MQTT_USER` in the header. -/
def MQTT_USER : Option Value := headerValue "MQTT_USER"

/-- Value of `MQTT_PASS` in the header. -/
def MQTT_PASS : Option Value := headerValue "MQTT_PASS"

/-- Value of `MQTT_CLIENTNAME` in the header. -/
def MQTT_CLIENTNAME : Option Value := headerValue "MQTT_CLIENTNAME"

/-- Value of `humidity_topic` in the header. -/
def humidity_topic : Option Value := headerValue "humidity_topic"

/-- Value of `temperature_topic` in the header. -/
def temperature_topic : Option Value := headerValue "temperature_topic"

/-- The configuration record a header text compiles to. -/
def buildText (lines : List String) : Option DeviceConfigurationRecord :=
  match parseHeader lines with
  | some table => build table
  | none => none

/-- The configuration record the unedited header compiles to. -/
def template : Option DeviceConfigurationRecord :=
  buildText sourceLines

/-- The record with `device_hostname` replaced, all else kept: the effect the
specification asks of editing the hostname and rebuilding. -/
def setHostname (c : DeviceConfigurationRecord) (h : String) : DeviceConfigurationRecord :=
  { c with device_hostname := h }

/-- A text that can stand between the quotes of a string literal as it is:
every character is printable ASCII (space to tilde, so no carriage return,
line feed or other control character), and none is a quote, a backslash or a
question mark (no escape sequence, no line splice, no trigraph). -/
def PlainText (h : String) : Prop :=
  ∀ c ∈ h.toList, 32 ≤ c.toNat ∧ c.toNat ≤ 126 ∧ c ≠ '"' ∧ c ≠ '\\' ∧ c ≠ '?'

/-- The text of the header after its `WIFI_HOSTNAME` line (the twelfth) is
rewritten to define the text `h`. -/
def editHostnameLine (lines : List String) (h : String) : List String :=
  lines.set 11 ("#define WIFI_HOSTNAME \"" ++ h ++ "\"")

/-- The record the header's ten definitions denote. -/
def templateRecord : DeviceConfigurationRecord where
  network_ssid := "MyRouter123"
  network_password := "Hunter2"
  device_hostname := "Attic Temperature"
  broker_address := "homeassistant.local"
  broker_port := 1883
  broker_username := "username_here"
  broker_password := "password_here"
  client_identifier := "esp8266-attic"
  humidity_topic := "sensor/esp8266-attic/humidity"
  temperature_topic := "sensor/esp8266-attic/temperature"

/-- A value that is text of length at least one. -/
def NonEmptyText (v : Option Value) : Prop :=
  ∃ s, v = some (.text s) ∧ 1 ≤ s.length

/-- Topic names built from the client identifier:
`sensor/<client_identifier>/humidity` and `sensor/<client_identifier>/temperature`. -/
def Namespaced (c : DeviceConfigurationRecord) : Prop :=
  c.humidity_topic = "sensor/" ++ c.client_identifier ++ "/humidity" ∧
  c.temperature_topic = "sensor/" ++ c.client_identifier ++ "/temperature"

/-- An MQTT topic name fit for publishing: non-empty, free of the wildcards
`+` and `#`, not starting with `$` or `/`, without an empty level (no `//`,
no trailing `/`), and at most 65535 bytes of UTF-8. -/
def ValidPublishTopic (s : String) : Prop :=
  1 ≤ s.length ∧ '+' ∉ s.toList ∧ '#' ∉ s.toList ∧
  s.toList.head? ≠ some '$' ∧ s.toList.head? ≠ some '/' ∧
  ¬ (['/', '/'] <:+: s.toList) ∧ s.toList.getLast? ≠ some '/' ∧
  s.utf8ByteSize ≤ 65535

instance (s : String) : Decidable (ValidPublishTopic s) := by
  unfold ValidPublishTopic; infer_instance

instance (c : DeviceConfigurationRecord) : Decidable (Namespaced c) := by
  unfold Namespaced; infer_instance

instance (h : String) : Decidable (PlainText h) := by
  unfold PlainText; infer_instance

/-- A second device's record, with its own client identifier and topics. -/
def cellarRecord : DeviceConfigurationRecord where
  network_ssid := "MyRouter123"
  network_password := "Hunter2"
  device_hostname := "Cellar Temperature"
  broker_address := "homeassistant.local"
  broker_port := 1883
  broker_username := "username_here"
  broker_password := "password_here"
  client_identifier := "esp8266-cellar"
  humidity_topic := "sensor/esp8266-cellar/humidity"
  temperature_topic := "sensor/esp8266-cellar/temperature"

/-! ## Theorems -/

/-- Lexing and parsing the text of the header yields exactly the macro table
`credentials`: no line fails to lex and no line is anything but a comment, a
blank line or an object-like `#define`. -/
theorem parseHeader_sourceLines : parseHeader sourceLines = some credentials := by
  decide


theorem headerTable_eq : headerTable = some credentials :=
  parseHeader_sourceLines

theorem template_eq : template = some templateRecord := by
  decide

/-! ### Editing one definition leaves the constants that do not mention it -/

theorem find_redefine_of_ne (table : List Define) (w x : String) (b : List PPToken)
    (hx : x ≠ w) :
    ((redefine table w b).find? (fun e => e.name == x)).map Define.body
      = (table.find? (fun e => e.name == x)).map Define.body := by
  induction table with
  | nil => rfl
  | cons d ds ih =>
    have ih2 : ((List.map (fun e => if e.name == w then { e with body := b } else e) ds).find?
        (fun e => e.name == x)).map Define.body
          = (ds.find? (fun e => e.name == x)).map Define.body := ih
    by_cases hdx : d.name = x
    · have hp : (d.name == x) = true := by simpa using hdx
      have hdw2 : ¬ d.name = w := fun h => hx (hdx ▸ h)
      have e1 : (if (d.name == w) = true then { d with body := b } else d) = d := by
        simp [hdw2]
      simp only [redefine, List.map_cons, e1, List.find?_cons, hp]
    · have hp : (d.name == x) = false := by simpa using hdx
      have hp2 : ((if d.name == w then { d with body := b } else d).name == x) = false := by
        by_cases hdw : (d.name == w) = true
        · simp only [hdw, if_true]; exact hp
        · simp only [hdw]; exact hp
      simp only [redefine, List.map_cons, List.find?_cons, hp, hp2]
      exact ih2

theorem lookup_eq_find (table : List Define) (x : String) :
    lookup table x = (table.find? (fun e => e.name == x)).map Define.body := by
  unfold lookup
  cases List.find? (fun e => e.name == x) table <;> rfl

theorem lookup_redefine_of_ne (table : List Define) (w x : String) (b : List PPToken)
    (hx : x ≠ w) : lookup (redefine table w b) x = lookup table x := by
  rw [lookup_eq_find, lookup_eq_find, find_redefine_of_ne table w x b hx]

theorem lookup_some_mem (table : List Define) (x : String) (body : List PPToken)
    (h : lookup table x = some body) : ∃ d ∈ table, d.name = x ∧ d.body = body := by
  unfold lookup at h
  cases hf : List.find? (fun e => e.name == x) table with
  | none => simp [hf] at h
  | some d =>
    simp only [hf, Option.some.injEq] at h
    refine ⟨d, List.mem_of_find?_eq_some hf, ?_, h⟩
    simpa using List.find?_some hf

theorem mapM_option_congr {α β : Type} (f g : α → Option β) (l : List α)
    (h : ∀ a ∈ l, f a = g a) : l.mapM f = l.mapM g := by
  induction l with
  | nil => rfl
  | cons a as ih =>
    have h1 : f a = g a := h a (List.mem_cons_self a as)
    have h2 : as.mapM f = as.mapM g := ih (fun x hx => h x (List.mem_cons_of_mem a hx))
    simp only [List.mapM_cons, h1, h2]

theorem length_redefine (table : List Define) (w : String) (b : List PPToken) :
    (redefine table w b).length = table.length := by
  simp [redefine]

theorem expand_redefine (table : List Define) (w : String) (b : List PPToken)
    (hfree : ∀ d ∈ table, d.name ≠ w → mentions d.body w = false) :
    ∀ (fuel : Nat) (hidden : List String) (toks : List PPToken), mentions toks w = false →
      expand (redefine table w b) fuel hidden toks = expand table fuel hidden toks := by
  intro fuel
  induction fuel with
  | zero => intro hidden toks _; rfl
  | succ n ih =>
    intro hidden toks htoks
    simp only [expand]
    congr 1
    apply mapM_option_congr
    intro tok htok
    cases tok with
    | hash => rfl
    | number v => rfl
    | stringLit v => rfl
    | ident x =>
      have hx : x ≠ w := by
        intro hxw
        subst hxw
        have : mentions toks x = true := by
          simpa [mentions] using htok
        rw [htoks] at this
        exact Bool.noConfusion this
      simp only [lookup_redefine_of_ne table w x b hx]
      by_cases hh : hidden.contains x = true
      · rw [if_pos hh, if_pos hh]
      · rw [if_neg hh, if_neg hh]
        cases hl : lookup table x with
        | none => rfl
        | some body =>
          obtain ⟨d, hd, hname, hbody⟩ := lookup_some_mem table x body hl
          have hm : mentions body w = false := by
            rw [← hbody]
            exact hfree d hd (by rw [hname]; exact hx)
          exact ih (x :: hidden) body hm

/-- Editing the replacement list of `w` changes the value of no other
constant, provided no other definition mentions `w`. -/
theorem valueOf_redefine (table : List Define) (w : String) (b : List PPToken)
    (hfree : ∀ d ∈ table, d.name ≠ w → mentions d.body w = false)
    (n : String) (hn : n ≠ w) :
    valueOf (redefine table w b) n = valueOf table n := by
  have hm : mentions [PPToken.ident n] w = false := by
    simp [mentions, Ne.symm hn]
  unfold valueOf
  rw [length_redefine, expand_redefine table w b hfree _ _ _ hm]

theorem credentials_hostname_free :
    ∀ d ∈ credentials, d.name ≠ "WIFI_HOSTNAME" → mentions d.body "WIFI_HOSTNAME" = false := by
  decide

/-! ### Rewriting the hostname line of the text -/

theorem foldl_lexStep_inString (cs : List Char) :
    ∀ (acc : List Char) (out : List PPToken),
      (∀ c ∈ cs, c ≠ '"' ∧ c ≠ '\\') →
      cs.foldl lexStep (LexState.inString acc, out) = (LexState.inString (cs.reverse ++ acc), out) := by
  induction cs with
  | nil => intro acc out _; rfl
  | cons c cs ih =>
    intro acc out hcs
    have hc := hcs c (List.mem_cons_self c cs)
    have hstep : lexStep (LexState.inString acc, out) c = (LexState.inString (c :: acc), out) := by
      simp [lexStep, hc.1, hc.2]
    rw [List.foldl_cons, hstep, ih (c :: acc) out (fun x hx => hcs x (List.mem_cons_of_mem c hx))]
    simp

theorem lexLine_hostname (h : String) (hplain : PlainText h) :
    lexLine ("#define WIFI_HOSTNAME \"" ++ h ++ "\"")
      = some [PPToken.hash, PPToken.ident "define", PPToken.ident "WIFI_HOSTNAME",
              PPToken.stringLit h] := by
  have hpre : "#define WIFI_HOSTNAME \"".toList.foldl lexStep (LexState.idle, [])
      = (LexState.inString [],
         [PPToken.ident "WIFI_HOSTNAME", PPToken.ident "define", PPToken.hash]) := by
    decide
  have hlist : ("#define WIFI_HOSTNAME \"" ++ h ++ "\"").toList
      = "#define WIFI_HOSTNAME \"".toList ++ (h.toList ++ ['"']) := by
    simp [String.toList, String.data_append]
  unfold lexLine
  rw [hlist, List.foldl_append, hpre, List.foldl_append,
    foldl_lexStep_inString h.toList [] _
      (fun c hc => ⟨(hplain c hc).2.2.1, (hplain c hc).2.2.2.1⟩)]
  simp [lexStep, lexFinish]

/-- A text with a carriage return, a line feed, a quote or a backslash is not
plain, so nothing is asserted of a hostname line holding one. -/
theorem not_plainText_line_break :
    ¬ PlainText "a\rb" ∧ ¬ PlainText "a\nb" ∧ ¬ PlainText "a\"b" ∧ ¬ PlainText "a\\b" := by
  decide

theorem parseHeader_append (xs ys : List String) :
    parseHeader (xs ++ ys) =
      match parseHeader xs, parseHeader ys with
      | some a, some b => some (a ++ b)
      | _, _ => none := by
  induction xs with
  | nil => cases h : parseHeader ys <;> simp [parseHeader, h]
  | cons x xs ih =>
    rw [List.cons_append]
    cases hx : lexLine x with
    | none => simp [parseHeader, hx]
    | some toks =>
      cases hp : parseLine toks with
      | none =>
        cases h1 : parseHeader xs <;> cases h2 : parseHeader ys <;>
          simp [parseHeader, hx, hp, ih, h1, h2]
      | some od =>
        cases od <;> cases h1 : parseHeader xs <;> cases h2 : parseHeader ys <;>
          simp [parseHeader, hx, hp, ih, h1, h2]

/-- Rewriting the hostname line of the text to a plain text `h` and parsing
again gives the macro table with `WIFI_HOSTNAME` redefined as that literal. -/
theorem parseHeader_editHostnameLine (h : String) (hplain : PlainText h) :
    parseHeader (editHostnameLine sourceLines h)
      = some (redefine credentials "WIFI_HOSTNAME" [PPToken.stringLit h]) := by
  have hsplit : editHostnameLine sourceLines h
      = sourceLines.take 11 ++
          (["#define WIFI_HOSTNAME \"" ++ h ++ "\""] ++ sourceLines.drop 12) := rfl
  have h1 : parseHeader (sourceLines.take 11) = some (credentials.take 2) := by decide
  have h3 : parseHeader (sourceLines.drop 12) = some (credentials.drop 3) := by decide
  have h2 : parseHeader ["#define WIFI_HOSTNAME \"" ++ h ++ "\""]
      = some [⟨"WIFI_HOSTNAME", [PPToken.stringLit h]⟩] := by
    simp [parseHeader, lexLine_hostname h hplain, parseLine]
  rw [hsplit, parseHeader_append, parseHeader_append, h1, h2, h3]
  rfl

/-! ### Expansion does not run out of fuel -/

theorem mapM_option_isSome {α β : Type} (f : α → Option β) (l : List α)
    (h : ∀ a ∈ l, (f a).isSome = true) : (l.mapM f).isSome = true := by
  induction l with
  | nil => rfl
  | cons a as ih =>
    have h1 := h a (List.mem_cons_self a as)
    have h2 := ih (fun x hx => h x (List.mem_cons_of_mem a hx))
    obtain ⟨b, hb⟩ := Option.isSome_iff_exists.mp h1
    obtain ⟨bs, hbs⟩ := Option.isSome_iff_exists.mp h2
    rw [List.mapM_cons, hb, hbs]
    rfl

theorem expand_isSome (table : List Define) :
    ∀ (fuel : Nat) (hidden : List String) (toks : List PPToken),
      hidden.Nodup → (∀ x ∈ hidden, x ∈ table.map Define.name) →
      table.length + 1 ≤ hidden.length + fuel →
      (expand table fuel hidden toks).isSome = true := by
  intro fuel
  induction fuel with
  | zero =>
    intro hidden toks hnd hsub hlen
    have hle : hidden.length ≤ (table.map Define.name).length :=
      (List.Nodup.subperm hnd hsub).length_le
    simp at hle
    omega
  | succ n ih =>
    intro hidden toks hnd hsub hlen
    simp only [expand, Option.isSome_map']
    apply mapM_option_isSome
    intro tok _
    cases tok with
    | hash => rfl
    | number v => rfl
    | stringLit v => rfl
    | ident x =>
      by_cases hh : hidden.contains x = true
      · dsimp only
        rw [if_pos hh]
        rfl
      · dsimp only
        rw [if_neg hh]
        cases hl : lookup table x with
        | none => rfl
        | some body =>
          obtain ⟨d, hd, hname, _⟩ := lookup_some_mem table x body hl
          have hx : x ∉ hidden := by simpa using hh
          apply ih (x :: hidden) body (List.nodup_cons.mpr ⟨hx, hnd⟩)
          · intro y hy
            rcases List.mem_cons.mp hy with rfl | hy
            · exact hname ▸ List.mem_map_of_mem Define.name hd
            · exact hsub y hy
          · simp only [List.length_cons]; omega

/-- The fuel `valueOf` gives the expansion always suffices. -/
theorem expand_valueOf_isSome (table : List Define) (name : String) :
    (expand table (table.length + 1) [] [PPToken.ident name]).isSome = true :=
  expand_isSome table (table.length + 1) [] _ List.nodup_nil (by simp) (by simp)

/-! ### Topic names built from distinct client identifiers -/

theorem wrap_injective (p a b q : String) (h : p ++ a ++ q = p ++ b ++ q) : a = b := by
  have h2 := congrArg String.data h
  simp only [String.data_append, List.append_cancel_right_eq, List.append_cancel_left_eq] at h2
  exact String.ext h2

theorem humidity_ne_temperature (a b : String) :
    "sensor/" ++ a ++ "/humidity" ≠ "sensor/" ++ b ++ "/temperature" := by
  intro h
  have h2 := congrArg (fun s => s.data.reverse.head?) h
  simp [String.data_append] at h2

/-! ### The claims -/

/-- C1: `MQTT_PORT` is defined by a single integer literal, and its value `p`
is a valid TCP port, `1 ≤ p ≤ 65535`. -/
theorem mqtt_port_is_valid_tcp_port :
    ∃ p : Nat,
      (∃ t, headerTable = some t ∧ lookup t "MQTT_PORT" = some [PPToken.number p]) ∧
      MQTT_PORT = some (Value.int p) ∧ 1 ≤ p ∧ p ≤ 65535 :=
  ⟨1883, ⟨credentials, headerTable_eq, by decide⟩, by decide, by decide, by decide⟩

/-- C2: each of the nine text constants of the header is defined as a string
of length at least one, and `MQTT_PORT` is defined with a value. -/
theorem required_fields_non_empty :
    NonEmptyText WIFI_SSID ∧ NonEmptyText WIFI_PASS ∧ NonEmptyText WIFI_HOSTNAME ∧
    NonEmptyText MQTT_SERVER ∧ NonEmptyText MQTT_USER ∧ NonEmptyText MQTT_PASS ∧
    NonEmptyText MQTT_CLIENTNAME ∧ NonEmptyText humidity_topic ∧
    NonEmptyText temperature_topic ∧
    (∃ t body v, headerTable = some t ∧ lookup t "MQTT_PORT" = some body ∧
      MQTT_PORT = some v) :=
  ⟨⟨"MyRouter123", by decide, by decide⟩,
   ⟨"Hunter2", by decide, by decide⟩,
   ⟨"Attic Temperature", by decide, by decide⟩,
   ⟨"homeassistant.local", by decide, by decide⟩,
   ⟨"username_here", by decide, by decide⟩,
   ⟨"password_here", by decide, by decide⟩,
   ⟨"esp8266-attic", by decide, by decide⟩,
   ⟨"sensor/esp8266-attic/humidity", by decide, by decide⟩,
   ⟨"sensor/esp8266-attic/temperature", by decide, by decide⟩,
   ⟨credentials, [PPToken.number 1883], Value.int 1883, headerTable_eq, by decide, by decide⟩⟩

/-- C3: the header defines exactly ten constants, with the ten names of the
data model and none twice; the record is read off them one constant per
field, nine as text and `MQTT_PORT` as an integer. -/
theorem ten_constants_one_per_field :
    ∃ t c, headerTable = some t ∧
      t.map Define.name =
        ["WIFI_SSID", "WIFI_PASS", "WIFI_HOSTNAME", "MQTT_SERVER", "MQTT_PORT", "MQTT_USER",
         "MQTT_PASS", "MQTT_CLIENTNAME", "humidity_topic", "temperature_topic"] ∧
      (t.map Define.name).Nodup ∧ t.length = 10 ∧
      build t = some c ∧
      valueOf t "WIFI_SSID" = some (Value.text c.network_ssid) ∧
      valueOf t "WIFI_PASS" = some (Value.text c.network_password) ∧
      valueOf t "WIFI_HOSTNAME" = some (Value.text c.device_hostname) ∧
      valueOf t "MQTT_SERVER" = some (Value.text c.broker_address) ∧
      valueOf t "MQTT_PORT" = some (Value.int c.broker_port) ∧
      valueOf t "MQTT_USER" = some (Value.text c.broker_username) ∧
      valueOf t "MQTT_PASS" = some (Value.text c.broker_password) ∧
      valueOf t "MQTT_CLIENTNAME" = some (Value.text c.client_identifier) ∧
      valueOf t "humidity_topic" = some (Value.text c.humidity_topic) ∧
      valueOf t "temperature_topic" = some (Value.text c.temperature_topic) :=
  ⟨credentials, templateRecord, headerTable_eq, by decide, by decide, by decide, by decide,
   by decide, by decide, by decide, by decide, by decide, by decide, by decide, by decide,
   by decide, by decide⟩

/-- C4: replacing `device_hostname` in any record by any text leaves the
other nine fields as they were; in the header no definition other than that
of `WIFI_HOSTNAME` mentions `WIFI_HOSTNAME`, so that rebuilding after editing
that definition yields the template record with only `device_hostname`
replaced, and every other constant keeps its value; the same holds when the
line is rewritten in the text with a plain text (printable ASCII without
quote, backslash or question mark) and the text is parsed again. -/
theorem hostname_edit_changes_only_hostname :
    (∀ (c : DeviceConfigurationRecord) (h : String),
      (setHostname c h).device_hostname = h ∧
      (setHostname c h).network_ssid = c.network_ssid ∧
      (setHostname c h).network_password = c.network_password ∧
      (setHostname c h).broker_address = c.broker_address ∧
      (setHostname c h).broker_port = c.broker_port ∧
      (setHostname c h).broker_username = c.broker_username ∧
      (setHostname c h).broker_password = c.broker_password ∧
      (setHostname c h).client_identifier = c.client_identifier ∧
      (setHostname c h).humidity_topic = c.humidity_topic ∧
      (setHostname c h).temperature_topic = c.temperature_topic) ∧
    headerTable = some credentials ∧ build credentials = some templateRecord ∧
    (∀ d ∈ credentials, d.name ≠ "WIFI_HOSTNAME" → mentions d.body "WIFI_HOSTNAME" = false) ∧
    (∀ h : String, build (redefine credentials "WIFI_HOSTNAME" [PPToken.stringLit h])
        = some (setHostname templateRecord h)) ∧
    (∀ (b : List PPToken) (n : String), n ≠ "WIFI_HOSTNAME" →
      valueOf (redefine credentials "WIFI_HOSTNAME" b) n = valueOf credentials n) ∧
    (∀ h : String, PlainText h →
      buildText (editHostnameLine sourceLines h) = some (setHostname templateRecord h)) :=
  ⟨fun _ _ => ⟨rfl, rfl, rfl, rfl, rfl, rfl, rfl, rfl, rfl, rfl⟩,
   headerTable_eq, by decide, credentials_hostname_free, fun _ => rfl,
   fun b n hn => valueOf_redefine credentials "WIFI_HOSTNAME" b credentials_hostname_free n hn,
   fun h hplain => by
     unfold buildText
     rw [parseHeader_editHostnameLine h hplain]
     rfl⟩

theorem hostname_edit_changes_only_hostname_witness :
    "MQTT_CLIENTNAME" ≠ "WIFI_HOSTNAME" ∧ PlainText "Cellar Temperature" ∧
    valueOf (redefine credentials "WIFI_HOSTNAME" [PPToken.stringLit "Cellar Temperature"])
        "MQTT_CLIENTNAME" = valueOf credentials "MQTT_CLIENTNAME" ∧
    buildText (editHostnameLine sourceLines "Cellar Temperature")
        = some (setHostname templateRecord "Cellar Temperature") :=
  ⟨by decide, by decide,
   hostname_edit_changes_only_hostname.2.2.2.2.2.1
     [PPToken.stringLit "Cellar Temperature"] "MQTT_CLIENTNAME" (by decide),
   hostname_edit_changes_only_hostname.2.2.2.2.2.2 "Cellar Temperature"
     (by decide)⟩

/-- C5: the broker port the template ships is 1883. -/
theorem default_broker_port_is_1883 :
    MQTT_PORT = some (Value.int 1883) ∧
    ∃ c, template = some c ∧ c.broker_port = 1883 :=
  ⟨by decide, templateRecord, template_eq, rfl⟩

/-- C7: the humidity topic and the temperature topic of the template are
different strings. -/
theorem topics_are_different :
    humidity_topic ≠ temperature_topic ∧
    ∃ c, template = some c ∧ c.humidity_topic ≠ c.temperature_topic :=
  ⟨by decide, templateRecord, template_eq, by decide⟩

/-- C8: in the template both topics are `sensor/<client identifier>/humidity`
and `sensor/<client identifier>/temperature`; any two records whose topics
are built this way from different client identifiers share no topic. -/
theorem topics_namespaced_by_client :
    (∃ c, template = some c ∧ Namespaced c) ∧
    ∀ c₁ c₂ : DeviceConfigurationRecord, Namespaced c₁ → Namespaced c₂ →
      c₁.client_identifier ≠ c₂.client_identifier →
      c₁.humidity_topic ≠ c₂.humidity_topic ∧
      c₁.humidity_topic ≠ c₂.temperature_topic ∧
      c₁.temperature_topic ≠ c₂.humidity_topic ∧
      c₁.temperature_topic ≠ c₂.temperature_topic := by
  refine ⟨⟨templateRecord, template_eq, by decide⟩, ?_⟩
  intro c₁ c₂ h₁ h₂ hne
  obtain ⟨hh₁, ht₁⟩ := h₁
  obtain ⟨hh₂, ht₂⟩ := h₂
  rw [hh₁, ht₁, hh₂, ht₂]
  refine ⟨fun h => hne (wrap_injective _ _ _ _ h), humidity_ne_temperature _ _,
    fun h => humidity_ne_temperature _ _ h.symm, fun h => hne (wrap_injective _ _ _ _ h)⟩

theorem topics_namespaced_by_client_witness :
    Namespaced templateRecord ∧ Namespaced cellarRecord ∧
    templateRecord.client_identifier ≠ cellarRecord.client_identifier ∧
    templateRecord.humidity_topic ≠ cellarRecord.humidity_topic ∧
    templateRecord.humidity_topic ≠ cellarRecord.temperature_topic ∧
    templateRecord.temperature_topic ≠ cellarRecord.humidity_topic ∧
    templateRecord.temperature_topic ≠ cellarRecord.temperature_topic :=
  ⟨by decide, by decide, by decide,
   topics_namespaced_by_client.2 templateRecord cellarRecord
     (by decide) (by decide) (by decide)⟩

/-- C9: both topics of the template are valid MQTT publish topic names:
non-empty, without `+` or `#`, not starting with `$` or `/`, without an empty
level, and at most 65535 bytes long. -/
theorem topics_are_valid_publish_topics :
    ∃ c, template = some c ∧
      ValidPublishTopic c.humidity_topic ∧ ValidPublishTopic c.temperature_topic :=
  ⟨templateRecord, template_eq, by decide, by decide⟩

end Credentials
